import Mathlib

/- A shallow embedding of the ISOForge application: the data model of
src/types.ts, the blueprint-generation service of
src/services/geminiService.ts, and the UI state handlers of src/App.tsx.
The JavaScript runtime primitives the code relies on (JSON.parse,
JSON.stringify with indent 2) are embedded as executable Lean functions. -/

namespace ISOForge

/- ===== Data model: src/types.ts ===== -/

/-- The OS enumeration of types.ts; each constructor carries the string
value of the TypeScript enum via osToString. -/
inductive OS where
| ubuntu : OS
| debian : OS
| arch : OS
| fedora : OS
| alpine : OS
deriving DecidableEq

def osToString : OS → String
| OS.ubuntu => "Ubuntu"
| OS.debian => "Debian"
| OS.arch => "Arch Linux"
| OS.fedora => "Fedora"
| OS.alpine => "Alpine Linux"

/-- The Arch enumeration of types.ts (X86_64 = "x86_64", ARM64 = "aarch64"). -/
inductive Arch where
| x86_64 : Arch
| arm64 : Arch
deriving DecidableEq

def archToString : Arch → String
| Arch.x86_64 => "x86_64"
| Arch.arm64 => "aarch64"

/-- ISOConfig of types.ts, field for field (password is optional and never
populated by any flow). -/
structure ISOConfig where
  os : OS
  version : String
  architecture : Arch
  hostname : String
  username : String
  password : Option String
  packages : List String
  customScripts : String
  isCloudInitEnabled : Bool
deriving DecidableEq

/-- The BuildLog severity union of types.ts. -/
inductive LogType where
| info : LogType
| success : LogType
| warning : LogType
| error : LogType
deriving DecidableEq

/-- BuildLog of types.ts.  The timestamp string is produced at runtime by
toLocaleTimeString; the embedding threads it in as a parameter. -/
structure BuildLog where
  timestamp : String
  message : String
  type : LogType
deriving DecidableEq

/-- GeneratedFile of types.ts (called GeneratedArtifact in the spec). -/
structure GeneratedFile where
  name : String
  content : String
  language : String
deriving DecidableEq

/- ===== JSON values and JSON.parse =====

The service does an unchecked cast of whatever JSON.parse returns, so the
embedding keeps the full parsed value.  Numbers keep their source lexeme
(no claim depends on numeric value).  Duplicate keys follow the JS object
semantics: the later value wins at the first occurrence position. -/

inductive Json where
| null : Json
| bool (b : Bool) : Json
| num (lexeme : String) : Json
| str (s : String) : Json
| arr (elems : List Json) : Json
| obj (members : List (String × Json)) : Json

def isWsChar (c : Char) : Bool :=
  c = ' ' || c = '\t' || c = '\n' || c = '\r'

def skipWs : List Char → List Char
| [] => []
| c :: cs => if isWsChar c then skipWs cs else c :: cs

def escDecode (c : Char) : Option Char :=
  if c = '"' then some '"'
  else if c = '\\' then some '\\'
  else if c = '/' then some '/'
  else if c = 'n' then some '\n'
  else if c = 't' then some '\t'
  else if c = 'r' then some '\r'
  else if c = 'b' then some (Char.ofNat 8)
  else if c = 'f' then some (Char.ofNat 12)
  else none

def hexVal (c : Char) : Option Nat :=
  if '0' ≤ c ∧ c ≤ '9' then some (c.toNat - '0'.toNat)
  else if 'a' ≤ c ∧ c ≤ 'f' then some (c.toNat - 'a'.toNat + 10)
  else if 'A' ≤ c ∧ c ≤ 'F' then some (c.toNat - 'A'.toNat + 10)
  else none

/-- Body of a JSON string literal, after the opening quote: returns the
decoded characters and the remaining input after the closing quote.
Unescaped control characters are rejected, as JSON.parse does. -/
def parseStrBody : List Char → Option (List Char × List Char)
| [] => none
| c :: cs =>
  if c = '"' then some ([], cs)
  else if c = '\\' then
    match cs with
    | [] => none
    | e :: cs2 =>
      if e = 'u' then
        match cs2 with
        | h1 :: h2 :: h3 :: h4 :: cs3 =>
          match hexVal h1, hexVal h2, hexVal h3, hexVal h4 with
          | some a, some b, some c2, some d =>
            (parseStrBody cs3).map
              (fun p => (Char.ofNat (((a * 16 + b) * 16 + c2) * 16 + d) :: p.1, p.2))
          | _, _, _, _ => none
        | _ => none
      else
        match escDecode e with
        | some ch => (parseStrBody cs2).map (fun p => (ch :: p.1, p.2))
        | none => none
  else if c.toNat < 32 then none
  else (parseStrBody cs).map (fun p => (c :: p.1, p.2))

def digitSpan : List Char → List Char × List Char
| [] => ([], [])
| c :: cs =>
  if c.isDigit then
    let p := digitSpan cs
    (c :: p.1, p.2)
  else ([], c :: cs)

/-- Integer part of the JSON number grammar: 0 or [1-9][0-9]*. -/
def parseIntPart : List Char → Option (List Char × List Char)
| [] => none
| c :: cs =>
  if c = '0' then some (['0'], cs)
  else if c.isDigit then
    let p := digitSpan cs
    some (c :: p.1, p.2)
  else none

def parseFracPart (l : List Char) : Option (List Char × List Char) :=
  match l with
  | '.' :: cs =>
    match digitSpan cs with
    | ([], _) => none
    | (ds, rest) => some ('.' :: ds, rest)
  | _ => some ([], l)

def parseExpPart (l : List Char) : Option (List Char × List Char) :=
  match l with
  | [] => some ([], [])
  | c :: cs =>
    if c = 'e' ∨ c = 'E' then
      let sr : List Char × List Char :=
        match cs with
        | [] => ([], [])
        | s :: cs2 => if s = '+' ∨ s = '-' then ([s], cs2) else ([], s :: cs2)
      match digitSpan sr.2 with
      | ([], _) => none
      | (ds, rest) => some (c :: sr.1 ++ ds, rest)
    else some ([], c :: cs)

def parseNum (l : List Char) : Option (Json × List Char) :=
  let sr : List Char × List Char :=
    match l with
    | '-' :: cs => (['-'], cs)
    | _ => ([], l)
  match parseIntPart sr.2 with
  | none => none
  | some (ip, r1) =>
    match parseFracPart r1 with
    | none => none
    | some (fp, r2) =>
      match parseExpPart r2 with
      | none => none
      | some (ep, r3) => some (Json.num (String.mk (sr.1 ++ ip ++ fp ++ ep)), r3)

/-- Object-member insertion with JS semantics: an existing key keeps its
position and receives the new value; a new key is appended. -/
def insertKV (kvs : List (String × Json)) (k : String) (v : Json) :
    List (String × Json) :=
  match kvs with
  | [] => [(k, v)]
  | (k0, v0) :: rest =>
    if k0 = k then (k0, v) :: rest
    else (k0, v0) :: insertKV rest k v

mutual

/-- One JSON value.  The fuel argument bounds recursion depth; every
recursive call decrements it, and jsonParse supplies fuel well above any
possible consumption for its input. -/
def parseValue : Nat → List Char → Option (Json × List Char)
| 0, _ => none
| fuel + 1, l =>
  match l with
  | [] => none
  | c :: cs =>
    if c = '"' then (parseStrBody cs).map (fun p => (Json.str (String.mk p.1), p.2))
    else if c = '[' then parseElems fuel cs
    else if c = '{' then parseMembers fuel cs
    else if c = 't' then
      match cs with
      | 'r' :: 'u' :: 'e' :: r => some (Json.bool true, r)
      | _ => none
    else if c = 'f' then
      match cs with
      | 'a' :: 'l' :: 's' :: 'e' :: r => some (Json.bool false, r)
      | _ => none
    else if c = 'n' then
      match cs with
      | 'u' :: 'l' :: 'l' :: r => some (Json.null, r)
      | _ => none
    else parseNum (c :: cs)

/-- Array contents immediately after the opening bracket. -/
def parseElems : Nat → List Char → Option (Json × List Char)
| 0, _ => none
| fuel + 1, l =>
  match skipWs l with
  | [] => none
  | c :: r =>
    if c = ']' then some (Json.arr [], r)
    else
      match parseValue fuel (c :: r) with
      | none => none
      | some (v, r2) => parseElemsTail fuel r2 [v]

/-- Array contents after at least one element has been read. -/
def parseElemsTail : Nat → List Char → List Json → Option (Json × List Char)
| 0, _, _ => none
| fuel + 1, l, acc =>
  match skipWs l with
  | [] => none
  | c :: r =>
    if c = ']' then some (Json.arr acc, r)
    else if c = ',' then
      match parseValue fuel (skipWs r) with
      | none => none
      | some (v, r2) => parseElemsTail fuel r2 (acc ++ [v])
    else none

/-- Object contents immediately after the opening brace. -/
def parseMembers : Nat → List Char → Option (Json × List Char)
| 0, _ => none
| fuel + 1, l =>
  match skipWs l with
  | [] => none
  | c :: r =>
    if c = '}' then some (Json.obj [], r)
    else if c = '"' then
      match parseStrBody r with
      | none => none
      | some (k, r2) =>
        match skipWs r2 with
        | ':' :: r3 =>
          match parseValue fuel (skipWs r3) with
          | none => none
          | some (v, r4) => parseMembersTail fuel r4 (insertKV [] (String.mk k) v)
        | _ => none
    else none

/-- Object contents after at least one member has been read. -/
def parseMembersTail : Nat → List Char → List (String × Json) →
    Option (Json × List Char)
| 0, _, _ => none
| fuel + 1, l, acc =>
  match skipWs l with
  | [] => none
  | c :: r =>
    if c = '}' then some (Json.obj acc, r)
    else if c = ',' then
      match skipWs r with
      | '"' :: r2 =>
        match parseStrBody r2 with
        | none => none
        | some (k, r3) =>
          match skipWs r3 with
          | ':' :: r4 =>
            match parseValue fuel (skipWs r4) with
            | none => none
            | some (v, r5) => parseMembersTail fuel r5 (insertKV acc (String.mk k) v)
          | _ => none
      | _ => none
    else none

end

/-- JSON.parse: one value, optionally surrounded by whitespace, consuming
the whole input; none models the SyntaxError throw. -/
def jsonParse (s : String) : Option Json :=
  match parseValue (2 * s.length + 10) (skipWs s.data) with
  | some (v, rest) => if skipWs rest = [] then some v else none
  | none => none

/- ===== JSON.stringify(value, null, 2) ===== -/

def hexDigitChar (n : Nat) : Char :=
  if n < 10 then Char.ofNat ('0'.toNat + n) else Char.ofNat ('a'.toNat + (n - 10))

/-- The JSON.stringify quoting rule for one character: short escapes for the
usual controls plus quote and backslash, a lowercase u-escape for every
other character below 0x20, the character itself otherwise. -/
def escChar (c : Char) : List Char :=
  if c = '"' then ['\\', '"']
  else if c = '\\' then ['\\', '\\']
  else if c = '\n' then ['\\', 'n']
  else if c = '\r' then ['\\', 'r']
  else if c = '\t' then ['\\', 't']
  else if c.toNat = 8 then ['\\', 'b']
  else if c.toNat = 12 then ['\\', 'f']
  else if c.toNat < 32 then
    ['\\', 'u', '0', '0', hexDigitChar (c.toNat / 16), hexDigitChar (c.toNat % 16)]
  else [c]

def escChars : List Char → List Char
| [] => []
| c :: cs => escChar c ++ escChars cs

/-- A quoted JSON string literal. -/
def renderQStr (s : String) : List Char :=
  '"' :: (escChars s.data ++ ['"'])

def nspaces (n : Nat) : List Char := List.replicate n ' '

mutual

/-- JSON.stringify with indent 2 at the given indentation level.  A number
echoes its stored lexeme; all values exported by the application are
strings inside the fixed artifact shape, so no claim touches numeric
canonicalization. -/
def renderJson (ind : Nat) : Json → List Char
| Json.null => ['n', 'u', 'l', 'l']
| Json.bool b => if b then ['t', 'r', 'u', 'e'] else ['f', 'a', 'l', 's', 'e']
| Json.num lx => lx.data
| Json.str s => renderQStr s
| Json.arr [] => ['[', ']']
| Json.arr (x :: xs) =>
  '[' :: '\n' :: (renderElemsJ (ind + 2) x xs ++ '\n' :: (nspaces ind ++ [']']))
| Json.obj [] => ['{', '}']
| Json.obj ((k, v) :: kvs) =>
  '{' :: '\n' :: (renderMembersJ (ind + 2) k v kvs ++ '\n' :: (nspaces ind ++ ['}']))
termination_by j => sizeOf j

def renderElemsJ (ind : Nat) (x : Json) (xs : List Json) : List Char :=
  match xs with
  | [] => nspaces ind ++ renderJson ind x
  | y :: ys => nspaces ind ++ renderJson ind x ++ ',' :: '\n' :: renderElemsJ ind y ys
termination_by sizeOf x + sizeOf xs

def renderMembersJ (ind : Nat) (k : String) (v : Json) (kvs : List (String × Json)) :
    List Char :=
  match kvs with
  | [] => nspaces ind ++ renderQStr k ++ ':' :: ' ' :: renderJson ind v
  | (k2, v2) :: ks =>
    nspaces ind ++ renderQStr k ++ ':' :: ' ' :: renderJson ind v ++
      ',' :: '\n' :: renderMembersJ ind k2 v2 ks
termination_by sizeOf v + sizeOf kvs

end

def stringify (j : Json) : String := String.mk (renderJson 0 j)

/- ===== Artifact shape (the declared response schema) ===== -/

/-- The Json value of one conforming artifact object, fields in the order
of the declared response schema. -/
def encodeObj (f : GeneratedFile) : Json :=
  Json.obj [("name", Json.str f.name), ("content", Json.str f.content),
            ("language", Json.str f.language)]

def encodeArtifacts (files : List GeneratedFile) : Json :=
  Json.arr (files.map encodeObj)

def lookupKey : List (String × Json) → String → Option Json
| [], _ => none
| (k0, v) :: rest, k => if k0 = k then some v else lookupKey rest k

/-- Does a Json value carry the three required string fields of the
declared schema?  Extra members are tolerated, mirroring "containing the
fields". -/
def decodeObj (j : Json) : Option GeneratedFile :=
  match j with
  | Json.obj kvs =>
    match lookupKey kvs "name", lookupKey kvs "content", lookupKey kvs "language" with
    | some (Json.str n), some (Json.str c), some (Json.str lg) => some ⟨n, c, lg⟩
    | _, _, _ => none
  | _ => none

/-- All-or-nothing decoding of a list of artifact objects. -/
def decodeList : List Json → Option (List GeneratedFile)
| [] => some []
| x :: xs =>
  match decodeObj x, decodeList xs with
  | some f, some fs => some (f :: fs)
  | _, _ => none

/-- The spec-side notion of a conforming artifact list, used to compare the
raw service return against the declared array-of-objects schema.  The
source performs no such validation; this definition exists only to state
claims about schema conformance. -/
def decodeArtifacts (j : Json) : Option (List GeneratedFile) :=
  match j with
  | Json.arr xs => decodeList xs
  | _ => none

/- ===== src/services/geminiService.ts ===== -/

/-- Outcome of generateISOBlueprint: result is .error when an exception
escapes the function (a rejected promise), .ok with the raw parsed value
otherwise; consoleMessages collects console.error output. -/
structure ServiceResult where
  result : Except String Json
  consoleMessages : List String

/-- generateISOBlueprint.  The argument is the outcome of the awaited
ai.models.generateContent call: .error e when the call itself throws
(that await sits outside the try block, so the exception propagates),
.ok text with the optional response.text otherwise.  The body mirrors
JSON.parse(response.text or-else the two-character array literal) inside
try/catch: parse failure logs to the console and yields the empty list. -/
def generateISOBlueprint (call : Except String (Option String)) : ServiceResult :=
  match call with
  | Except.error e => ⟨Except.error e, []⟩
  | Except.ok text =>
    let t := match text with
      | none => "[]"
      | some s => if s = "" then "[]" else s
    match jsonParse t with
    | some j => ⟨Except.ok j, []⟩
    | none => ⟨Except.ok (Json.arr []), ["Failed to parse AI response"]⟩

/- ===== src/App.tsx state and handlers ===== -/

/-- The React state of App.  generatedFiles is kept as a raw Json value
because the service performs an unchecked cast: any parsed value can land
here.  pendingRequest is the semantic marker for "the outbound call of a
generation invocation is outstanding". -/
structure AppState where
  config : ISOConfig
  newPackage : String
  isGenerating : Bool
  logs : List BuildLog
  generatedFiles : Json
  activeStep : Nat
  pendingRequest : Bool

/-- The useState initial values of App. -/
def initState : AppState :=
  { config :=
      { os := OS.ubuntu
        version := "24.04 LTS"
        architecture := Arch.x86_64
        hostname := "isoforge-node"
        username := "admin"
        password := none
        packages := ["vim", "curl", "docker.io", "git"]
        customScripts := ""
        isCloudInitEnabled := true }
    newPackage := ""
    isGenerating := false
    logs := []
    generatedFiles := Json.arr []
    activeStep := 1
    pendingRequest := false }

/-- addLog: appends one entry; the timestamp parameter stands for
new Date().toLocaleTimeString(). -/
def addLog (ts message : String) (type : LogType) (s : AppState) : AppState :=
  { s with logs := s.logs ++ [⟨ts, message, type⟩] }

/-- loadTemplate: replace the configuration, clear artifacts and logs, then
log the load. -/
def loadTemplate (ts : String) (tc : ISOConfig) (s : AppState) : AppState :=
  let s1 := { s with config := tc, generatedFiles := Json.arr [], logs := [] }
  addLog ts ("Loaded " ++ osToString tc.os ++ " template configuration.") LogType.info s1

/-- The TEMPLATES constant of App.tsx (config fields only; password is
absent there, hence none). -/
def ubuntuServerTemplate : ISOConfig :=
  { os := OS.ubuntu
    version := "24.04 LTS"
    architecture := Arch.x86_64
    hostname := "ubuntu-srv"
    username := "sysadmin"
    password := none
    packages := ["openssh-server", "htop", "curl", "ufw", "fail2ban"]
    customScripts := "Enable UFW and allow port 22 by default. Set up a basic hardening script."
    isCloudInitEnabled := true }

def debianDesktopTemplate : ISOConfig :=
  { os := OS.debian
    version := "12 (Bookworm)"
    architecture := Arch.x86_64
    hostname := "debian-work"
    username := "user"
    password := none
    packages := ["task-gnome-desktop", "firefox-esr", "libreoffice", "vlc", "git"]
    customScripts := "Install non-free firmware and configure desktop environment scaling for 4K."
    isCloudInitEnabled := false }

def fedoraCloudTemplate : ISOConfig :=
  { os := OS.fedora
    version := "40"
    architecture := Arch.x86_64
    hostname := "fedora-cloud-node"
    username := "fedora"
    password := none
    packages := ["python3", "dnf-plugins-core", "qemu-guest-agent", "cockpit"]
    customScripts := "Configure cockpit for remote management and optimize swap settings for cloud instances."
    isCloudInitEnabled := true }

def templates : List ISOConfig :=
  [ubuntuServerTemplate, debianDesktopTemplate, fedoraCloudTemplate]

/-- setNewPackage from the text input. -/
def typePackage (name : String) (s : AppState) : AppState :=
  { s with newPackage := name }

/-- addPackage: guarded by truthiness of newPackage and absence from the
current list; appends and clears the input. -/
def addPackage (s : AppState) : AppState :=
  if s.newPackage ≠ "" ∧ s.newPackage ∉ s.config.packages then
    { s with
      config := { s.config with packages := s.config.packages ++ [s.newPackage] }
      newPackage := "" }
  else s

/-- removePackage. -/
def removePackage (pkg : String) (s : AppState) : AppState :=
  { s with
    config :=
      { s.config with packages := s.config.packages.filter (fun p => decide (p ≠ pkg)) } }

/-- The part of handleGenerate that runs before the outbound call is
awaited: flag up, clear artifacts and logs, three info entries, send the
request. -/
def generateStart (ts : String) (s : AppState) : AppState :=
  let s1 := { s with isGenerating := true, generatedFiles := Json.arr [], logs := [] }
  let s2 := addLog ts "Initializing ISOForge AI engine..." LogType.info s1
  let s3 := addLog ts
    ("Target Distribution: " ++ osToString s.config.os ++ " " ++ s.config.version)
    LogType.info s2
  let s4 := addLog ts
    "Consulting AI Architect for optimal partitioning and package dependencies..."
    LogType.info s3
  { s4 with pendingRequest := true }

/-- The part of handleGenerate that runs once the awaited call settles:
the catch arm on a rejected call, otherwise the staged info entries of the
cosmetic delays, installation of the result, the success entry, step 2;
the finally arm clears the flag on both paths. -/
def generateFinish (ts : String) (call : Except String (Option String))
    (s : AppState) : AppState :=
  let s0 := { s with pendingRequest := false }
  match (generateISOBlueprint call).result with
  | Except.error msg =>
    let s1 := addLog ts ("Architectural failure: " ++ msg) LogType.error s0
    { s1 with isGenerating := false }
  | Except.ok files =>
    let s1 := addLog ts "Analyzing package manifest..." LogType.info s0
    let s2 := addLog ts "Drafting autoinstall/preseed configurations..." LogType.info s1
    let s3 := addLog ts "Synthesizing bootloader menu and kernel parameters..." LogType.info s2
    let s4 := { s3 with generatedFiles := files }
    let s5 := addLog ts "ISO Blueprint successfully synthesized!" LogType.success s4
    let s6 := { s5 with activeStep := 2 }
    { s6 with isGenerating := false }

/-- One full handleGenerate invocation, the awaited call settling with the
given outcome. -/
def handleGenerateRun (ts : String) (call : Except String (Option String))
    (s : AppState) : AppState :=
  generateFinish ts call (generateStart ts s)

/-- The document downloadAll serializes: JSON.stringify(generatedFiles, null, 2). -/
def downloadAllDoc (s : AppState) : String := stringify s.generatedFiles

/-- The download file name of downloadAll. -/
def downloadFileName (s : AppState) : String :=
  "isoforge-" ++ (osToString s.config.os).toLower ++ "-config.json"

/-- The state effect of downloadAll (one success entry). -/
def downloadAllRun (ts : String) (s : AppState) : AppState :=
  addLog ts "Blueprint bundle downloaded successfully." LogType.success s

/- ===== UI event system =====

Each constructor is one user-visible handler of App.tsx; serviceReturn is
the completion of an outstanding outbound call.  The generate button
carries disabled := isGenerating, so its click handler only runs when the
flag is down. -/

inductive UiEvent where
| clickGenerate (ts : String) : UiEvent
| serviceReturn (ts : String) (call : Except String (Option String)) : UiEvent
| clickTemplate (ts : String) (i : Fin templates.length) : UiEvent
| typePackageInput (name : String) : UiEvent
| clickAddPackage : UiEvent
| clickRemovePackage (pkg : String) : UiEvent
| clickDownload (ts : String) : UiEvent
| setOs (v : OS) : UiEvent
| setArchitecture (v : Arch) : UiEvent
| setVersion (v : String) : UiEvent
| setHostname (v : String) : UiEvent
| setUsername (v : String) : UiEvent
| setCloudInit (v : Bool) : UiEvent
| setCustomScripts (v : String) : UiEvent

/-- One dispatch step: the next state and how many requests this step sends
to the external completion service. -/
def step (s : AppState) : UiEvent → AppState × Nat
| UiEvent.clickGenerate ts =>
  if s.isGenerating then (s, 0) else (generateStart ts s, 1)
| UiEvent.serviceReturn ts call =>
  if s.pendingRequest then (generateFinish ts call s, 0) else (s, 0)
| UiEvent.clickTemplate ts i => (loadTemplate ts (templates.get i) s, 0)
| UiEvent.typePackageInput name => (typePackage name s, 0)
| UiEvent.clickAddPackage => (addPackage s, 0)
| UiEvent.clickRemovePackage pkg => (removePackage pkg s, 0)
| UiEvent.clickDownload ts => (downloadAllRun ts s, 0)
| UiEvent.setOs v => ({ s with config := { s.config with os := v } }, 0)
| UiEvent.setArchitecture v => ({ s with config := { s.config with architecture := v } }, 0)
| UiEvent.setVersion v => ({ s with config := { s.config with version := v } }, 0)
| UiEvent.setHostname v => ({ s with config := { s.config with hostname := v } }, 0)
| UiEvent.setUsername v => ({ s with config := { s.config with username := v } }, 0)
| UiEvent.setCloudInit v => ({ s with config := { s.config with isCloudInitEnabled := v } }, 0)
| UiEvent.setCustomScripts v => ({ s with config := { s.config with customScripts := v } }, 0)

def runEvents (s : AppState) : List UiEvent → AppState
| [] => s
| e :: es => runEvents (step s e).1 es

/- ===== Suspension-point trace of handleGenerate ===== -/

/-- The statement-level shape of one handleGenerate invocation: a state
mutation (setState or a log append), the awaited outbound call, or an
awaited setTimeout delay. -/
inductive HGStep where
| mutation (label : String) : HGStep
| awaitCall : HGStep
| awaitSleep (ms : Nat) : HGStep
deriving DecidableEq

def isSuspension : HGStep → Bool
| HGStep.mutation _ => false
| HGStep.awaitCall => true
| HGStep.awaitSleep _ => true

/-- handleGenerate statement by statement when the awaited call succeeds. -/
def handleGenerateSuccessTrace : List HGStep :=
  [HGStep.mutation "setIsGenerating(true)",
   HGStep.mutation "setGeneratedFiles([])",
   HGStep.mutation "setLogs([])",
   HGStep.mutation "addLog(Initializing ISOForge AI engine)",
   HGStep.mutation "addLog(Target Distribution)",
   HGStep.mutation "addLog(Consulting AI Architect)",
   HGStep.awaitCall,
   HGStep.awaitSleep 800,
   HGStep.mutation "addLog(Analyzing package manifest)",
   HGStep.awaitSleep 600,
   HGStep.mutation "addLog(Drafting autoinstall-preseed configurations)",
   HGStep.awaitSleep 1000,
   HGStep.mutation "addLog(Synthesizing bootloader menu)",
   HGStep.mutation "setGeneratedFiles(files)",
   HGStep.mutation "addLog(success)",
   HGStep.mutation "setActiveStep(2)",
   HGStep.mutation "setIsGenerating(false)"]

/-- handleGenerate statement by statement when the awaited call rejects:
control jumps from the await to the catch arm, then the finally arm. -/
def handleGenerateFailureTrace : List HGStep :=
  [HGStep.mutation "setIsGenerating(true)",
   HGStep.mutation "setGeneratedFiles([])",
   HGStep.mutation "setLogs([])",
   HGStep.mutation "addLog(Initializing ISOForge AI engine)",
   HGStep.mutation "addLog(Target Distribution)",
   HGStep.mutation "addLog(Consulting AI Architect)",
   HGStep.awaitCall,
   HGStep.mutation "addLog(Architectural failure)",
   HGStep.mutation "setIsGenerating(false)"]

/-- A sequence of package-add operations: each one types a name into the
input field and clicks the add button. -/
def addPackageSeq (s : AppState) (names : List String) : AppState :=
  names.foldl (fun st n => addPackage (typePackage n st)) s

/-- The rendered separators-plus-objects tail of a pretty-printed artifact
array: what follows the first element. -/
def arrTail : List GeneratedFile → List Char
| [] => []
| f :: fs => ',' :: '\n' :: (nspaces 2 ++ (renderJson 2 (encodeObj f) ++ arrTail fs))

/- ===================== Theorems ===================== -/

theorem stringMk_data (s : String) : String.mk s.data = s := rfl

/- ----- C10: absent or empty response text ----- -/

/-- C10: when the call succeeds but response.text is absent or the empty
string, generateISOBlueprint substitutes the two-character array literal,
returns the empty artifact list, and raises no error. -/
theorem generate_absent_or_empty_text :
    generateISOBlueprint (Except.ok none) = ⟨Except.ok (Json.arr []), []⟩ ∧
    generateISOBlueprint (Except.ok (some "")) = ⟨Except.ok (Json.arr []), []⟩ :=
  ⟨rfl, rfl⟩

/- ----- C2: parse failure vs call exception ----- -/

/-- C2 counterexample: when the outbound call itself throws, the exception
propagates out of generateISOBlueprint instead of being turned into an
empty sequence — the claim that the operation never propagates the
exception is false at this input. -/
theorem generate_call_throw_cex :
    (generateISOBlueprint (Except.error "boom")).result = Except.error "boom" ∧
    (generateISOBlueprint (Except.error "boom")).result ≠ Except.ok (Json.arr []) := by
  refine ⟨rfl, ?_⟩
  intro h
  exact Except.noConfusion h

/-- C2 amended: on parse failure the operation logs the failure to the
console and returns the empty sequence without raising; an exception from
the outbound call itself is not caught inside the operation (the await
sits outside the try block) and propagates to the caller unchanged. -/
theorem parse_failure_empty_call_throw_propagates :
    (∀ t : String, t ≠ "" → jsonParse t = none →
      generateISOBlueprint (Except.ok (some t)) =
        ⟨Except.ok (Json.arr []), ["Failed to parse AI response"]⟩) ∧
    (∀ e : String, generateISOBlueprint (Except.error e) = ⟨Except.error e, []⟩) := by
  constructor
  · intro t ht hp
    simp [generateISOBlueprint, ht, hp]
  · intro e
    rfl

theorem parse_failure_empty_call_throw_propagates_witness :
    generateISOBlueprint (Except.ok (some "oops")) =
      ⟨Except.ok (Json.arr []), ["Failed to parse AI response"]⟩ :=
  parse_failure_empty_call_throw_propagates.1 "oops" (by decide) rfl

/- ----- C9: no schema validation of parsed values ----- -/

/-- C9: whatever JSON.parse yields is returned unchanged without any check
that it is an array of conforming objects; a wrong-shape valid JSON input
produces a value that is neither a conforming artifact list nor the empty
list. -/
theorem generate_no_shape_validation :
    (∀ (t : String) (j : Json), t ≠ "" → jsonParse t = some j →
      (generateISOBlueprint (Except.ok (some t))).result = Except.ok j) ∧
    ((generateISOBlueprint (Except.ok (some "\"hello\""))).result =
        Except.ok (Json.str "hello") ∧
      decodeArtifacts (Json.str "hello") = none ∧
      Json.str "hello" ≠ Json.arr []) := by
  refine ⟨?_, rfl, rfl, ?_⟩
  · intro t j ht hp
    simp [generateISOBlueprint, ht, hp]
  · intro h
    exact Json.noConfusion h

theorem generate_no_shape_validation_witness :
    (generateISOBlueprint (Except.ok (some "true"))).result = Except.ok (Json.bool true) :=
  generate_no_shape_validation.1 "true" (Json.bool true) (by decide) rfl

/- ----- C5: loading a template ----- -/

/-- C5 counterexample: right after a template load the log is not empty —
loadTemplate clears it and then appends one info entry. -/
theorem load_template_cex :
    (loadTemplate "10:00:00" ubuntuServerTemplate initState).logs ≠ [] := by
  simp [loadTemplate, addLog]

/-- C5 amended: loading a template replaces every configuration field with
the template's values and empties the artifact list, but leaves the log
holding exactly one info entry announcing the load rather than empty. -/
theorem load_template_replaces_config_resets_output (ts : String) (tc : ISOConfig)
    (s : AppState) :
    (loadTemplate ts tc s).config = tc ∧
    (loadTemplate ts tc s).generatedFiles = Json.arr [] ∧
    (loadTemplate ts tc s).logs =
      [⟨ts, "Loaded " ++ osToString tc.os ++ " template configuration.", LogType.info⟩] :=
  ⟨rfl, rfl, rfl⟩

/- ----- C7: suspension points of handleGenerate ----- -/

/-- C7 counterexample: the outbound call is not the sole suspension point
of handleGenerate and mutations do occur before it — already on the
success path the trace refutes both halves of the claim. -/
theorem suspension_trace_cex :
    ¬ (handleGenerateSuccessTrace.filter isSuspension = [HGStep.awaitCall] ∧
       (handleGenerateSuccessTrace.takeWhile (fun a => !isSuspension a)).length = 0) := by
  decide

/-- C7 amended: a successful handleGenerate invocation suspends four times
— the outbound call plus three cosmetic setTimeout delays of 800, 600 and
1000 ms — and six state mutations (flag, clearing artifacts and logs,
three info log entries) run before the call settles; on the failure path
the call is the sole suspension point but the same six mutations still
precede it. -/
theorem suspension_trace_actual :
    handleGenerateSuccessTrace.filter isSuspension =
      [HGStep.awaitCall, HGStep.awaitSleep 800, HGStep.awaitSleep 600,
       HGStep.awaitSleep 1000] ∧
    (handleGenerateSuccessTrace.takeWhile (fun a => !isSuspension a)).length = 6 ∧
    handleGenerateFailureTrace.filter isSuspension = [HGStep.awaitCall] ∧
    (handleGenerateFailureTrace.takeWhile (fun a => !isSuspension a)).length = 6 := by
  decide

/- ----- C3: malformed response handling in handleGenerate ----- -/

/-- C3 counterexample: a non-JSON response does not produce an
error-severity log entry at all — the invocation ends with a success
entry, so the count of error entries is 0, not 1. -/
theorem malformed_response_log_cex :
    (handleGenerateRun "10:00:00" (Except.ok (some "not json")) initState).logs.countP
      (fun l => l.type == LogType.error) ≠ 1 := by
  decide

/-- C3 amended: a generation invocation whose response text is non-JSON
yields an empty artifact list and no exception, but the log records zero
error-severity entries and one success entry — the parse failure is
silently treated as an empty blueprint. -/
theorem malformed_response_state (ts : String) (s : AppState) (t : String)
    (ht : t ≠ "") (hp : jsonParse t = none) :
    (handleGenerateRun ts (Except.ok (some t)) s).generatedFiles = Json.arr [] ∧
    (handleGenerateRun ts (Except.ok (some t)) s).logs.countP
      (fun l => l.type == LogType.error) = 0 ∧
    (handleGenerateRun ts (Except.ok (some t)) s).logs.countP
      (fun l => l.type == LogType.success) = 1 := by
  have hsvc : (generateISOBlueprint (Except.ok (some t))).result = Except.ok (Json.arr []) := by
    simp [generateISOBlueprint, ht, hp]
  unfold handleGenerateRun generateFinish
  rw [hsvc]
  simp [generateStart, addLog, List.countP_cons]

theorem malformed_response_state_witness :
    (handleGenerateRun "10:00:01" (Except.ok (some "oops")) initState).generatedFiles =
      Json.arr [] ∧
    (handleGenerateRun "10:00:01" (Except.ok (some "oops")) initState).logs.countP
      (fun l => l.type == LogType.error) = 0 ∧
    (handleGenerateRun "10:00:01" (Except.ok (some "oops")) initState).logs.countP
      (fun l => l.type == LogType.success) = 1 :=
  malformed_response_state "10:00:01" initState "oops" (by decide) rfl

/- ----- C4: package list stays duplicate-free ----- -/

theorem addPackage_nodup (s : AppState) (h : s.config.packages.Nodup) :
    (addPackage s).config.packages.Nodup := by
  unfold addPackage
  split
  next hc => simp [List.nodup_append, h, hc.2]
  next => exact h

/-- C4: from any state whose package list has no duplicates, every
sequence of package-add operations keeps it duplicate-free, and adding a
name already present leaves the list unchanged. -/
theorem package_add_preserves_nodup :
    (∀ (names : List String) (s : AppState), s.config.packages.Nodup →
      (addPackageSeq s names).config.packages.Nodup) ∧
    (∀ (s : AppState) (n : String), n ∈ s.config.packages →
      (addPackage (typePackage n s)).config.packages = s.config.packages) := by
  constructor
  · intro names
    induction names with
    | nil => intro s h; exact h
    | cons n ns ih =>
      intro s h
      show (addPackageSeq (addPackage (typePackage n s)) ns).config.packages.Nodup
      exact ih _ (addPackage_nodup (typePackage n s) h)
  · intro s n hmem
    unfold addPackage typePackage
    have hng : ¬ (n ≠ "" ∧ n ∉ s.config.packages) := by
      intro hc
      exact hc.2 hmem
    simp [hng]

theorem package_add_preserves_nodup_witness :
    (addPackageSeq initState ["nginx", "vim", "nginx"]).config.packages.Nodup ∧
    (addPackage (typePackage "vim" initState)).config.packages =
      initState.config.packages :=
  ⟨package_add_preserves_nodup.1 ["nginx", "vim", "nginx"] initState (by decide),
   package_add_preserves_nodup.2 initState "vim" (by decide)⟩

/- ----- C6: single in-flight generation invocation ----- -/

theorem generateStart_flags (ts : String) (s : AppState) :
    (generateStart ts s).isGenerating = true ∧
    (generateStart ts s).pendingRequest = true :=
  ⟨rfl, rfl⟩

theorem addPackage_pendingRequest (s : AppState) :
    (addPackage s).pendingRequest = s.pendingRequest := by
  unfold addPackage
  split <;> rfl

theorem addPackage_isGenerating (s : AppState) :
    (addPackage s).isGenerating = s.isGenerating := by
  unfold addPackage
  split <;> rfl

theorem generateFinish_flags (ts : String) (call : Except String (Option String))
    (s : AppState) :
    (generateFinish ts call s).pendingRequest = false ∧
    (generateFinish ts call s).isGenerating = false := by
  unfold generateFinish
  cases hr : (generateISOBlueprint call).result <;> simp [addLog]

theorem step_preserves_single_flight (s : AppState) (e : UiEvent)
    (h : s.pendingRequest = true → s.isGenerating = true) :
    (step s e).1.pendingRequest = true → (step s e).1.isGenerating = true := by
  cases e with
  | clickGenerate ts =>
    by_cases hg : s.isGenerating
    · simp [step, hg]
    · simp [step, hg, (generateStart_flags ts s).1]
  | serviceReturn ts call =>
    by_cases hp : s.pendingRequest
    · simp [step, hp, (generateFinish_flags ts call s).1]
    · simp [step, hp]
  | clickTemplate ts i => simpa [step, loadTemplate, addLog] using h
  | typePackageInput name => simpa [step, typePackage] using h
  | clickAddPackage =>
    simpa [step, addPackage_pendingRequest, addPackage_isGenerating] using h
  | clickRemovePackage pkg => simpa [step, removePackage] using h
  | clickDownload ts => simpa [step, downloadAllRun, addLog] using h
  | setOs v => simpa [step] using h
  | setArchitecture v => simpa [step] using h
  | setVersion v => simpa [step] using h
  | setHostname v => simpa [step] using h
  | setUsername v => simpa [step] using h
  | setCloudInit v => simpa [step] using h
  | setCustomScripts v => simpa [step] using h

theorem runEvents_single_flight : ∀ (evs : List UiEvent) (s : AppState),
    (s.pendingRequest = true → s.isGenerating = true) →
    ((runEvents s evs).pendingRequest = true → (runEvents s evs).isGenerating = true) := by
  intro evs
  induction evs with
  | nil => intro s h; exact h
  | cons e es ih =>
    intro s h
    exact ih (step s e).1 (step_preserves_single_flight s e h)

/-- C6: in every reachable state an outstanding outbound request implies
the generating flag is up, and while that flag is up a further click of
the generate trigger leaves the state unchanged and sends no request to
the external service — so requests never overlap. -/
theorem generation_single_flight (evs : List UiEvent) (ts : String) :
    ((runEvents initState evs).pendingRequest = true →
      (runEvents initState evs).isGenerating = true) ∧
    ((runEvents initState evs).isGenerating = true →
      step (runEvents initState evs) (UiEvent.clickGenerate ts) =
        (runEvents initState evs, 0)) := by
  constructor
  · exact runEvents_single_flight evs initState (by intro h; cases h)
  · intro h
    simp [step, h]

theorem generation_single_flight_witness :
    (runEvents initState [UiEvent.clickGenerate "10:00:00"]).isGenerating = true ∧
    step (runEvents initState [UiEvent.clickGenerate "10:00:00"])
        (UiEvent.clickGenerate "10:00:05") =
      (runEvents initState [UiEvent.clickGenerate "10:00:00"], 0) :=
  ⟨rfl, (generation_single_flight [UiEvent.clickGenerate "10:00:00"] "10:00:05").2 rfl⟩

/- ----- Parser and renderer round-trip machinery ----- -/

theorem skipWs_ws_cons (c : Char) (h : isWsChar c = true) (l : List Char) :
    skipWs (c :: l) = skipWs l := by
  simp [skipWs, h]

theorem skipWs_not_cons (c : Char) (h : isWsChar c = false) (l : List Char) :
    skipWs (c :: l) = c :: l := by
  simp [skipWs, h]

theorem skipWs_nspaces (n : Nat) (l : List Char) : skipWs (nspaces n ++ l) = skipWs l := by
  induction n with
  | zero => simp [nspaces]
  | succ k ih =>
    rw [show nspaces (k + 1) = ' ' :: nspaces k from rfl, List.cons_append,
        skipWs_ws_cons ' ' rfl, ih]

theorem hexVal_hexDigitChar : ∀ n < 16, hexVal (hexDigitChar n) = some n := by decide

theorem parseStrBody_escChar (c : Char) (l : List Char) :
    parseStrBody (escChar c ++ l) = (parseStrBody l).map (fun p => (c :: p.1, p.2)) := by
  by_cases h1 : c = '"'
  · subst h1
    rw [show escChar '"' ++ l = '\\' :: '"' :: l from rfl, parseStrBody.eq_def]
    simp [escDecode]
  by_cases h2 : c = '\\'
  · subst h2
    rw [show escChar '\\' ++ l = '\\' :: '\\' :: l from rfl, parseStrBody.eq_def]
    simp [escDecode]
  by_cases h3 : c = '\n'
  · subst h3
    rw [show escChar '\n' ++ l = '\\' :: 'n' :: l from rfl, parseStrBody.eq_def]
    simp [escDecode]
  by_cases h4 : c = '\r'
  · subst h4
    rw [show escChar '\r' ++ l = '\\' :: 'r' :: l from rfl, parseStrBody.eq_def]
    simp [escDecode]
  by_cases h5 : c = '\t'
  · subst h5
    rw [show escChar '\t' ++ l = '\\' :: 't' :: l from rfl, parseStrBody.eq_def]
    simp [escDecode]
  by_cases h6 : c.toNat = 8
  · have hc : c = Char.ofNat 8 := by rw [← h6, Char.ofNat_toNat]
    subst hc
    rw [show escChar (Char.ofNat 8) ++ l = '\\' :: 'b' :: l from rfl, parseStrBody.eq_def]
    simp [escDecode]
  by_cases h7 : c.toNat = 12
  · have hc : c = Char.ofNat 12 := by rw [← h7, Char.ofNat_toNat]
    subst hc
    rw [show escChar (Char.ofNat 12) ++ l = '\\' :: 'f' :: l from rfl, parseStrBody.eq_def]
    simp [escDecode]
  by_cases h8 : c.toNat < 32
  · have hd1 : hexVal (hexDigitChar (c.toNat / 16)) = some (c.toNat / 16) :=
      hexVal_hexDigitChar _ (by omega)
    have hd2 : hexVal (hexDigitChar (c.toNat % 16)) = some (c.toNat % 16) :=
      hexVal_hexDigitChar _ (by omega)
    have h0 : hexVal '0' = some 0 := by decide
    have harith : c.toNat / 16 * 16 + c.toNat % 16 = c.toNat := by omega
    simp only [escChar, h1, h2, h3, h4, h5, h6, h7, h8, if_true, if_false, ite_true,
      ite_false, if_neg, not_false_iff, List.cons_append]
    rw [parseStrBody.eq_def]
    simp [h0, hd1, hd2, harith, Char.ofNat_toNat]
  · simp only [escChar, h1, h2, h3, h4, h5, h6, h7, h8, ite_false, if_neg,
      not_false_iff, List.cons_append, List.singleton_append]
    rw [parseStrBody.eq_def]
    simp [h1, h2, h8]

theorem parseStrBody_escChars (cs l : List Char) :
    parseStrBody (escChars cs ++ ('"' :: l)) = some (cs, l) := by
  induction cs with
  | nil =>
    rw [show escChars [] ++ ('"' :: l) = '"' :: l from rfl, parseStrBody.eq_def]
    simp
  | cons c cs ih =>
    rw [show escChars (c :: cs) = escChar c ++ escChars cs from rfl, List.append_assoc,
        parseStrBody_escChar, ih]
    rfl

theorem parseValue_qstr (fuel : Nat) (s : String) (l : List Char) :
    parseValue (fuel + 1) (renderQStr s ++ l) = some (Json.str s, l) := by
  rw [show renderQStr s ++ l = '"' :: (escChars s.data ++ ('"' :: l)) by
    simp [renderQStr]]
  simp [parseValue, parseStrBody_escChars, stringMk_data]


theorem parseMembersTail_close (m j : Nat) (l : List Char) (acc : List (String × Json)) :
    parseMembersTail (m + 1) ('\n' :: (nspaces j ++ ('}' :: l))) acc = some (Json.obj acc, l) := by
  have hs : skipWs ('\n' :: (nspaces j ++ ('}' :: l))) = '}' :: l := by
    rw [skipWs_ws_cons '\n' rfl, skipWs_nspaces, skipWs_not_cons '}' rfl]
  simp [parseMembersTail, hs]

theorem renderQStr_cons (s : String) (l : List Char) :
    renderQStr s ++ l = '"' :: (escChars s.data ++ ('"' :: l)) := by
  simp [renderQStr]

theorem parseMembersTail_step (m j : Nat) (key v : String) (l : List Char)
    (acc : List (String × Json)) :
    parseMembersTail (m + 2)
      (',' :: ('\n' :: (nspaces j ++ (renderQStr key ++ (':' :: ' ' :: (renderQStr v ++ l))))))
      acc
    = parseMembersTail (m + 1) l (insertKV acc key (Json.str v)) := by
  have hs2 : skipWs ('\n' :: (nspaces j ++ (renderQStr key ++ (':' :: ' ' :: (renderQStr v ++ l)))))
      = '"' :: (escChars key.data ++ ('"' :: (':' :: ' ' :: (renderQStr v ++ l)))) := by
    rw [skipWs_ws_cons '\n' rfl, skipWs_nspaces, renderQStr_cons, skipWs_not_cons '"' rfl]
  have hs3 : skipWs (' ' :: (renderQStr v ++ l)) = renderQStr v ++ l := by
    rw [skipWs_ws_cons ' ' rfl, renderQStr_cons, skipWs_not_cons '"' rfl]
  show parseMembersTail (m + 1 + 1) _ _ = _
  simp [parseMembersTail, skipWs_not_cons ',' rfl, hs2, parseStrBody_escChars,
    skipWs_not_cons ':' rfl, hs3, parseValue_qstr, stringMk_data]


theorem parseMembers_start (m j : Nat) (key v : String) (l : List Char) :
    parseMembers (m + 2)
      ('\n' :: (nspaces j ++ (renderQStr key ++ (':' :: ' ' :: (renderQStr v ++ l)))))
    = parseMembersTail (m + 1) l [(key, Json.str v)] := by
  have hs2 : skipWs ('\n' :: (nspaces j ++ (renderQStr key ++ (':' :: ' ' :: (renderQStr v ++ l)))))
      = '"' :: (escChars key.data ++ ('"' :: (':' :: ' ' :: (renderQStr v ++ l)))) := by
    rw [skipWs_ws_cons '\n' rfl, skipWs_nspaces, renderQStr_cons, skipWs_not_cons '"' rfl]
  have hs3 : skipWs (' ' :: (renderQStr v ++ l)) = renderQStr v ++ l := by
    rw [skipWs_ws_cons ' ' rfl, renderQStr_cons, skipWs_not_cons '"' rfl]
  show parseMembers (m + 1 + 1) _ = _
  simp [parseMembers, hs2, parseStrBody_escChars, skipWs_not_cons ':' rfl, hs3,
    parseValue_qstr, stringMk_data, insertKV]

theorem renderObj_expand (ind : Nat) (f : GeneratedFile) :
    renderJson ind (encodeObj f) =
      '{' :: ('\n' :: (nspaces (ind + 2) ++ (renderQStr "name" ++ (':' :: (' ' :: (renderQStr f.name ++ (',' :: ('\n' :: (nspaces (ind + 2) ++ (renderQStr "content" ++ (':' :: (' ' :: (renderQStr f.content ++ (',' :: ('\n' :: (nspaces (ind + 2) ++ (renderQStr "language" ++ (':' :: (' ' :: (renderQStr f.language ++ ('\n' :: ((nspaces ind ++ ['}']))))))))))))))))))))))) := by
  simp [encodeObj, renderJson, renderMembersJ, List.append_assoc, List.cons_append]

theorem parseValue_encodeObj (k ind : Nat) (f : GeneratedFile) (rest : List Char) :
    parseValue (k + 5) (renderJson ind (encodeObj f) ++ rest) = some (encodeObj f, rest) := by
  rw [renderObj_expand]
  simp only [List.cons_append, List.append_assoc, List.singleton_append]
  show parseValue (k + 4 + 1) _ = _
  simp only [parseValue]
  rw [show k + 4 = k + 2 + 2 from rfl, parseMembers_start]
  rw [show k + 2 + 1 = k + 1 + 2 from rfl, parseMembersTail_step]
  rw [show k + 1 + 1 = k + 2 from rfl, parseMembersTail_step]
  rw [parseMembersTail_close]
  simp [insertKV, encodeObj]


theorem nspaces_zero : nspaces 0 = [] := rfl

theorem skipWs_to_obj (j ind : Nat) (f : GeneratedFile) (l : List Char) :
    skipWs ('\n' :: (nspaces j ++ (renderJson ind (encodeObj f) ++ l)))
    = renderJson ind (encodeObj f) ++ l := by
  rw [skipWs_ws_cons '\n' rfl, skipWs_nspaces, renderObj_expand, List.cons_append,
    skipWs_not_cons '{' rfl]

theorem parseElemsTail_close (m j : Nat) (l : List Char) (acc : List Json) :
    parseElemsTail (m + 1) ('\n' :: (nspaces j ++ (']' :: l))) acc = some (Json.arr acc, l) := by
  have hs : skipWs ('\n' :: (nspaces j ++ (']' :: l))) = ']' :: l := by
    rw [skipWs_ws_cons '\n' rfl, skipWs_nspaces, skipWs_not_cons ']' rfl]
  simp [parseElemsTail, hs]

theorem parseElemsTail_step (m : Nat) (f : GeneratedFile) (l : List Char) (acc : List Json) :
    parseElemsTail (m + 6) (',' :: ('\n' :: (nspaces 2 ++ (renderJson 2 (encodeObj f) ++ l)))) acc
    = parseElemsTail (m + 5) l (acc ++ [encodeObj f]) := by
  have hs := skipWs_to_obj 2 2 f l
  show parseElemsTail (m + 5 + 1) _ _ = _
  simp [parseElemsTail, skipWs_not_cons ',' rfl, hs, parseValue_encodeObj]

theorem parseElems_objFirst (m : Nat) (f : GeneratedFile) (l : List Char) :
    parseElems (m + 6) ('\n' :: (nspaces 2 ++ (renderJson 2 (encodeObj f) ++ l)))
    = parseElemsTail (m + 5) l [encodeObj f] := by
  have hobj := parseValue_encodeObj m 2 f l
  have hs := skipWs_to_obj 2 2 f l
  rw [renderObj_expand] at hobj hs ⊢
  simp only [List.cons_append, List.append_assoc, List.singleton_append, List.nil_append] at hobj hs ⊢
  show parseElems (m + 5 + 1) _ = _
  simp [parseElems, hs, hobj]


theorem parseElemsTail_arrTail : ∀ (fs : List GeneratedFile) (m : Nat) (acc : List Json)
    (l : List Char),
    parseElemsTail (5 * fs.length + m + 1) (arrTail fs ++ ('\n' :: (']' :: l))) acc
    = some (Json.arr (acc ++ fs.map encodeObj), l) := by
  intro fs
  induction fs with
  | nil =>
    intro m acc l
    have h := parseElemsTail_close m 0 l acc
    simp only [nspaces_zero, List.nil_append] at h
    simpa [arrTail] using h
  | cons f fs ih =>
    intro m acc l
    rw [show arrTail (f :: fs) ++ ('\n' :: (']' :: l)) =
        ',' :: ('\n' :: (nspaces 2 ++ (renderJson 2 (encodeObj f) ++
          (arrTail fs ++ ('\n' :: (']' :: l)))))) by
      simp [arrTail, List.append_assoc, List.cons_append]]
    rw [show 5 * (f :: fs).length + m + 1 = 5 * fs.length + m + 6 by
      simp [List.length_cons]; omega]
    rw [parseElemsTail_step]
    rw [show 5 * fs.length + m + 5 = 5 * fs.length + (m + 4) + 1 by omega]
    rw [ih (m + 4)]
    simp

theorem renderElemsJ_artifacts : ∀ (fs : List GeneratedFile) (f : GeneratedFile),
    renderElemsJ 2 (encodeObj f) (fs.map encodeObj)
    = nspaces 2 ++ (renderJson 2 (encodeObj f) ++ arrTail fs) := by
  intro fs
  induction fs with
  | nil => intro f; simp [renderElemsJ, arrTail]
  | cons g gs ih =>
    intro f
    simp [renderElemsJ, arrTail, List.map_cons, ih, List.append_assoc]

theorem parseValue_encodeArtifacts (files : List GeneratedFile) (m : Nat) (rest : List Char) :
    parseValue (5 * files.length + m + 7) (renderJson 0 (encodeArtifacts files) ++ rest)
    = some (encodeArtifacts files, rest) := by
  cases files with
  | nil =>
    rw [show (5 : Nat) * (List.length ([] : List GeneratedFile)) + m + 7 = m + 5 + 1 + 1 by
      simp]
    rw [show renderJson 0 (encodeArtifacts ([] : List GeneratedFile)) ++ rest =
        '[' :: (']' :: rest) by simp [encodeArtifacts, renderJson]]
    simp [parseValue, parseElems, skipWs_not_cons ']' rfl, encodeArtifacts]
  | cons f fs =>
    rw [show renderJson 0 (encodeArtifacts (f :: fs)) ++ rest =
        '[' :: ('\n' :: (nspaces 2 ++ (renderJson 2 (encodeObj f) ++
          (arrTail fs ++ ('\n' :: (']' :: rest)))))) by
      simp [encodeArtifacts, renderJson, List.map_cons, renderElemsJ_artifacts, nspaces_zero,
        List.append_assoc, List.cons_append, List.nil_append]]
    rw [show 5 * (f :: fs).length + m + 7 = 5 * fs.length + m + 5 + 6 + 1 by
      simp [List.length_cons]; omega]
    simp only [parseValue]
    rw [show (5 * fs.length + m + 5 + 6 = 5 * fs.length + m + 5 + 6) from rfl]
    rw [parseElems_objFirst]
    rw [show 5 * fs.length + m + 5 + 5 = 5 * fs.length + (m + 9) + 1 by omega]
    rw [parseElemsTail_arrTail]
    simp [encodeArtifacts]


theorem renderQStr_length (s : String) : 2 ≤ (renderQStr s).length := by
  simp [renderQStr]

theorem renderObj_length (ind : Nat) (f : GeneratedFile) :
    7 ≤ (renderJson ind (encodeObj f)).length := by
  rw [renderObj_expand]
  simp [List.length_cons, List.length_append, nspaces]
  omega

theorem arrTail_length (fs : List GeneratedFile) : 4 * fs.length ≤ (arrTail fs).length := by
  induction fs with
  | nil => simp [arrTail]
  | cons f fs ih =>
    simp [arrTail, List.length_cons, List.length_append, nspaces] at ih ⊢
    omega

theorem renderArtifacts_expand (f : GeneratedFile) (fs : List GeneratedFile) :
    renderJson 0 (encodeArtifacts (f :: fs)) =
      '[' :: ('\n' :: (nspaces 2 ++ (renderJson 2 (encodeObj f) ++
        (arrTail fs ++ ('\n' :: (']' :: [])))))) := by
  simp [encodeArtifacts, renderJson, List.map_cons, renderElemsJ_artifacts, nspaces_zero,
    List.append_assoc, List.cons_append, List.nil_append]

theorem renderArtifacts_length (files : List GeneratedFile) :
    3 * files.length ≤ (renderJson 0 (encodeArtifacts files)).length := by
  cases files with
  | nil => simp
  | cons f fs =>
    have h1 := arrTail_length fs
    have h2 := renderObj_length 2 f
    rw [renderArtifacts_expand]
    simp [List.length_cons, List.length_append, nspaces]
    omega

theorem renderArtifacts_head (files : List GeneratedFile) :
    ∃ t, renderJson 0 (encodeArtifacts files) = '[' :: t := by
  cases files with
  | nil => exact ⟨[']'], by simp [encodeArtifacts, renderJson]⟩
  | cons f fs =>
    exact ⟨_, renderArtifacts_expand f fs⟩

theorem jsonParse_stringify_artifacts (files : List GeneratedFile) :
    jsonParse (stringify (encodeArtifacts files)) = some (encodeArtifacts files) := by
  have hlen := renderArtifacts_length files
  unfold jsonParse stringify
  rw [show (String.mk (renderJson 0 (encodeArtifacts files))).data
      = renderJson 0 (encodeArtifacts files) from rfl]
  rw [show (String.mk (renderJson 0 (encodeArtifacts files))).length
      = (renderJson 0 (encodeArtifacts files)).length from rfl]
  obtain ⟨t, ht⟩ := renderArtifacts_head files
  rw [ht, skipWs_not_cons '[' rfl, ← ht]
  rw [show 2 * (renderJson 0 (encodeArtifacts files)).length + 10
      = 5 * files.length +
        (2 * (renderJson 0 (encodeArtifacts files)).length + 3 - 5 * files.length) + 7 by
    omega]
  have h := parseValue_encodeArtifacts files
    (2 * (renderJson 0 (encodeArtifacts files)).length + 3 - 5 * files.length) []
  rw [List.append_nil] at h
  rw [h]
  simp [skipWs]

theorem decodeObj_encodeObj (f : GeneratedFile) : decodeObj (encodeObj f) = some f := by
  simp [decodeObj, encodeObj, lookupKey]

theorem decodeList_encode (files : List GeneratedFile) :
    decodeList (files.map encodeObj) = some files := by
  induction files with
  | nil => simp [decodeList]
  | cons f fs ih => simp [decodeList, decodeObj_encodeObj, ih]

theorem decodeArtifacts_encodeArtifacts (files : List GeneratedFile) :
    decodeArtifacts (encodeArtifacts files) = some files := by
  simp [decodeArtifacts, encodeArtifacts, decodeList_encode]

/- ----- C8: export round trip ----- -/

/-- C8: serializing any artifact list through the export operation
(JSON.stringify with indent 2 over the current generatedFiles) and
re-parsing the exported document with JSON.parse yields exactly the same
sequence of name/content/language records: the round trip is lossless. -/
theorem export_round_trip (files : List GeneratedFile) :
    jsonParse (downloadAllDoc { initState with generatedFiles := encodeArtifacts files })
      = some (encodeArtifacts files) ∧
    decodeArtifacts (encodeArtifacts files) = some files :=
  ⟨jsonParse_stringify_artifacts files, decodeArtifacts_encodeArtifacts files⟩

/- ----- C1: well-formed response arrays pass through unchanged ----- -/

theorem decodeList_spec : ∀ (objs : List Json) (arts : List GeneratedFile),
    decodeList objs = some arts →
    arts.length = objs.length ∧ ∀ i : Nat, arts[i]? = (objs[i]?).bind decodeObj := by
  intro objs
  induction objs with
  | nil =>
    intro arts h
    simp only [decodeList, Option.some.injEq] at h
    subst h
    refine ⟨rfl, ?_⟩
    intro i
    simp
  | cons o os ih =>
    intro arts h
    cases ho : decodeObj o with
    | none =>
      simp only [decodeList, ho] at h
      exact Option.noConfusion h
    | some b =>
      cases hos : decodeList os with
      | none =>
        simp only [decodeList, ho, hos] at h
        exact Option.noConfusion h
      | some bs =>
        simp only [decodeList, ho, hos, Option.some.injEq] at h
        subst h
        obtain ⟨hlen, hget⟩ := ih bs hos
        refine ⟨by simp [hlen], ?_⟩
        intro i
        cases i with
        | zero => simp [ho]
        | succ n => simpa using hget n

/-- C1: whenever the response text parses as a JSON array whose 1..N
elements all carry the three string fields of the schema, the operation
returns exactly that parsed array — same length, same order, every field
untouched — with no console diagnostics. -/
theorem generate_valid_array_unchanged (t : String) (objs : List Json)
    (arts : List GeneratedFile) (hne : t ≠ "") (_hN : 1 ≤ objs.length)
    (hp : jsonParse t = some (Json.arr objs))
    (hdec : decodeArtifacts (Json.arr objs) = some arts) :
    (generateISOBlueprint (Except.ok (some t))).result = Except.ok (Json.arr objs) ∧
    (generateISOBlueprint (Except.ok (some t))).consoleMessages = [] ∧
    arts.length = objs.length ∧
    (∀ i : Nat, arts[i]? = (objs[i]?).bind decodeObj) := by
  have hd : decodeList objs = some arts := by simpa [decodeArtifacts] using hdec
  obtain ⟨hlen, hget⟩ := decodeList_spec objs arts hd
  refine ⟨?_, ?_, hlen, hget⟩ <;> simp [generateISOBlueprint, hne, hp]

theorem generate_valid_array_unchanged_witness :
    (generateISOBlueprint (Except.ok
        (some "[\x7b\"name\":\"a\",\"content\":\"b\",\"language\":\"sh\"\x7d]"))).result =
      Except.ok (Json.arr [Json.obj [("name", Json.str "a"), ("content", Json.str "b"),
        ("language", Json.str "sh")]]) ∧
    (generateISOBlueprint (Except.ok
        (some "[\x7b\"name\":\"a\",\"content\":\"b\",\"language\":\"sh\"\x7d]"))).consoleMessages
      = [] ∧
    ([⟨"a", "b", "sh"⟩] : List GeneratedFile).length =
      ([Json.obj [("name", Json.str "a"), ("content", Json.str "b"),
        ("language", Json.str "sh")]] : List Json).length ∧
    (∀ i : Nat, ([⟨"a", "b", "sh"⟩] : List GeneratedFile)[i]? =
      (([Json.obj [("name", Json.str "a"), ("content", Json.str "b"),
        ("language", Json.str "sh")]] : List Json)[i]?).bind decodeObj) :=
  generate_valid_array_unchanged _ _ _ (by decide) (by decide) rfl rfl


end ISOForge
